import Mathlib

set_option maxHeartbeats 1000000
set_option maxRecDepth 8192

/-!
Verification of the data-partitioning and training-loop control logic of the
UPD_study repository (`Dataloaders/CXR.py`, `Models/CCD/CCD_trainer.py`,
`test/models/AMCons/AMCtrainer.py`) against its natural-language specification.

The Python sources are shallowly embedded: manifests are lists of path strings,
tensors are (nested) lists of rationals, the torch PRNG is an abstract
permutation supplier, and Python exceptions are modelled with `Except`/`Option`.
-/

/-- `os.path.join(config.datasets_dir, 'ChestXR', path)` (CXR.py lines 58-60,
102-105): prefix one manifest entry with the dataset directory. -/
def joinDD (dd p : String) : String := dd ++ "/ChestXR/" ++ p

/-- Subgroup balancing (CXR.py lines 52-55 and 97-100):
`if len(paths1) > len(paths2): paths1 = paths1[:len(paths2)] else:
paths2 = paths2[:len(paths1)]`. -/
def balance (l1 l2 : List α) : List α × List α :=
  if l2.length < l1.length then (l1.take l2.length, l2) else (l1, l2.take l1.length)

/-- `get_files(config, train=True)` with `config.sex == 'both'`
(CXR.py lines 47-63): balance the two normal manifests, prefix every entry,
return everything from index 200 on, concatenated. -/
def getFilesTrainBoth (dd : String) (nm1 nm2 : List String) : List String :=
  let b := balance nm1 nm2
  ((b.1.map (joinDD dd)).drop 200) ++ ((b.2.map (joinDD dd)).drop 200)

/-- `get_files(config, train=True)` with a single sex (CXR.py lines 64-71). -/
def getFilesTrainSingle (dd : String) (nm1 : List String) : List String :=
  (nm1.map (joinDD dd)).drop 200

/-- `get_files(config, train=False)` with `config.sex == 'both'`
(CXR.py lines 75-110): normal test paths are the first 200 of each balanced
normal manifest; anomalous paths are the balanced anomalous manifests capped at
400; labels are `[0]*len(normal_paths)` and `[1]*400`. -/
def getFilesEvalBoth (dd : String) (nm1 nm2 am1 am2 : List String) :
    List String × List String × List Int × List Int :=
  let b := balance nm1 nm2
  let c := balance am1 am2
  let normal := ((b.1.map (joinDD dd)).take 200) ++ ((b.2.map (joinDD dd)).take 200)
  let anomal := (c.1.map (joinDD dd)) ++ (c.2.map (joinDD dd))
  (normal, anomal.take 400, List.replicate normal.length 0, List.replicate 400 1)

/-- `get_files(config, train=False)` with a single sex (CXR.py lines 112-117):
`return paths1[:200], anom_paths1[:200], [0] * 200, [1] * 200`. -/
def getFilesEvalSingle (dd : String) (nm1 am1 : List String) :
    List String × List String × List Int × List Int :=
  ((nm1.map (joinDD dd)).take 200, (am1.map (joinDD dd)).take 200,
   List.replicate 200 0, List.replicate 200 1)

/-- The configuration fields of `config` that `get_dataloaders` reads, plus the
run seed (`config.seed`, which `get_dataloaders` never reads). -/
structure CXRConfig where
  seed : Nat
  sexBoth : Bool
  datasetsDir : String
  normalSplit : ℚ
  anomalSplit : ℚ

/-- Python `int(len(trainfiles) * config.normal_split)` (CXR.py line 256):
truncation of the product towards zero (the product is nonnegative in use). -/
def pySplitIdx (n : Nat) (q : ℚ) : Nat := (⌊(n : ℚ) * q⌋).toNat

/-- `trainfiles = list(np.array(trainfiles)[idx])`: re-index a list by a list of
indices (the permutation drawn from the torch PRNG). -/
def applyPerm (σ : List Nat) (l : List α) : List α := σ.filterMap l.get?

/-- Result shape of `get_dataloaders(config, train=True)` (CXR.py lines
245-273): either a lone train split or a (train, val) pair. -/
def CXRTrainOut := List String ⊕ (List String × List String)

/-- The normal-train pool `get_files(config, True)` resolves to, by sex mode. -/
def normTrainPool (cfg : CXRConfig) (nm1 nm2 : List String) : List String :=
  if cfg.sexBoth then getFilesTrainBoth cfg.datasetsDir nm1 nm2
  else getFilesTrainSingle cfg.datasetsDir nm1

/-- The evaluation lists `get_files(config, False)` resolves to, by sex mode. -/
def normAnomEval (cfg : CXRConfig) (nm1 nm2 am1 am2 : List String) :
    List String × List String × List Int × List Int :=
  if cfg.sexBoth then getFilesEvalBoth cfg.datasetsDir nm1 nm2 am1 am2
  else getFilesEvalSingle cfg.datasetsDir nm1 am1

/-- The `split_idx` branch of `get_dataloaders(config, train=True)` (CXR.py
lines 256-273): split the shuffled pool at `int(len * normal_split)`, returning
a (train, val) pair unless the split consumes everything. -/
def splitNormal (tf : List String) (q : ℚ) : CXRTrainOut :=
  if pySplitIdx tf.length q ≠ tf.length then
    Sum.inr (tf.take (pySplitIdx tf.length q), tf.drop (pySplitIdx tf.length q))
  else Sum.inl tf

/-- `get_dataloaders(config, train=True)` (CXR.py lines 245-273). `R s i n` is
the permutation the torch PRNG yields for the `i`-th `randperm(n)` drawn after
`manual_seed(s)`; the code always seeds with the literal 42. -/
def getDataloadersTrain (R : Nat → Nat → Nat → List Nat) (cfg : CXRConfig)
    (nm1 nm2 : List String) : CXRTrainOut :=
  splitNormal
    (applyPerm (R 42 0 (normTrainPool cfg nm1 nm2).length) (normTrainPool cfg nm1 nm2))
    cfg.normalSplit

/-- One test split: (normal paths, anomal paths, normal labels, anomal labels),
the four constructor arguments of `AnomalDataset`. -/
def CXRTestOut := List String × List String × List Int × List Int

/-- Big/small test split of the permuted evaluation lists with their label
lists (CXR.py lines 287-306); labels are split without being permuted. -/
def splitEval (normal anomal : List String) (ln la : List Int) (q : ℚ) :
    CXRTestOut × CXRTestOut :=
  ((normal.take (pySplitIdx normal.length q), anomal.take (pySplitIdx anomal.length q),
    ln.take (pySplitIdx normal.length q), la.take (pySplitIdx anomal.length q)),
   (normal.drop (pySplitIdx normal.length q), anomal.drop (pySplitIdx anomal.length q),
    ln.drop (pySplitIdx normal.length q), la.drop (pySplitIdx anomal.length q)))

/-- `get_dataloaders(config, train=False)` (CXR.py lines 275-306): permute the
normal and anomalous path lists (seed 42; the second `randperm` is the second
draw), split each at `int(len * config.anomal_split)`, return the big and small
test sets. -/
def getDataloadersTest (R : Nat → Nat → Nat → List Nat) (cfg : CXRConfig)
    (nm1 nm2 am1 am2 : List String) : CXRTestOut × CXRTestOut :=
  splitEval
    (applyPerm (R 42 0 (normAnomEval cfg nm1 nm2 am1 am2).1.length)
      (normAnomEval cfg nm1 nm2 am1 am2).1)
    (applyPerm (R 42 1 (normAnomEval cfg nm1 nm2 am1 am2).2.1.length)
      (normAnomEval cfg nm1 nm2 am1 am2).2.1)
    (normAnomEval cfg nm1 nm2 am1 am2).2.2.1
    (normAnomEval cfg nm1 nm2 am1 am2).2.2.2
    cfg.anomalSplit

/-- Re-indexing by the identity range is the identity. -/
theorem range_filterMap_get (l : List α) :
    (List.range l.length).filterMap l.get? = l := by
  induction l with
  | nil => rfl
  | cons a t ih =>
    have h1 : List.range (a :: t).length = 0 :: (List.range t.length).map Nat.succ := by
      simpa using List.range_succ_eq_map t.length
    rw [h1, List.filterMap_cons, show (a :: t).get? 0 = some a from rfl,
      List.filterMap_map]
    simpa using ih

/-- Re-indexing a list by a permutation of its index range permutes the list. -/
theorem applyPerm_perm (σ : List Nat) (l : List α)
    (h : σ.Perm (List.range l.length)) : (applyPerm σ l).Perm l := by
  have := h.filterMap l.get?
  rwa [range_filterMap_get] at this

theorem applyPerm_length (σ : List Nat) (l : List α)
    (h : σ.Perm (List.range l.length)) : (applyPerm σ l).length = l.length :=
  (applyPerm_perm σ l h).length_eq

theorem applyPerm_mem_iff (σ : List Nat) (l : List α)
    (h : σ.Perm (List.range l.length)) (a : α) :
    a ∈ applyPerm σ l ↔ a ∈ l :=
  (applyPerm_perm σ l h).mem_iff

/-- C1. For the both-subgroups configuration with per-subgroup normal manifest
lengths 1000 and 950, the Partitioner balances both lists to length 950,
reserves the first 200 entries of each as the normal-test partition (400
total), leaves a normal-train pool of 1500, and with `normal_split = 0.8`
splits the permuted pool into a train partition of 1200 and a validation
partition of 300. -/
theorem c1_partition_counts (R : Nat → Nat → Nat → List Nat) (cfg : CXRConfig)
    (nm1 nm2 am1 am2 : List String)
    (hR : ∀ s i n, (R s i n).Perm (List.range n))
    (hb : cfg.sexBoth = true) (hs : cfg.normalSplit = 4/5)
    (h1 : nm1.length = 1000) (h2 : nm2.length = 950) :
    (balance nm1 nm2).1.length = 950 ∧ (balance nm1 nm2).2.length = 950 ∧
    (getFilesEvalBoth cfg.datasetsDir nm1 nm2 am1 am2).1.length = 400 ∧
    (getFilesTrainBoth cfg.datasetsDir nm1 nm2).length = 1500 ∧
    ∃ t v, getDataloadersTrain R cfg nm1 nm2 = Sum.inr (t, v) ∧
      t.length = 1200 ∧ v.length = 300 := by
  have hbal : balance nm1 nm2 = (nm1.take 950, nm2) := by
    unfold balance
    rw [h1, h2, if_pos (by norm_num)]
  have hb1 : (balance nm1 nm2).1.length = 950 := by
    rw [hbal]; simp [h1]
  have hb2 : (balance nm1 nm2).2.length = 950 := by
    rw [hbal]; simpa using h2
  have hev : (getFilesEvalBoth cfg.datasetsDir nm1 nm2 am1 am2).1.length = 400 := by
    unfold getFilesEvalBoth
    simp only [List.length_append, List.length_take, List.length_map]
    rw [hb1, hb2]
    omega
  have htr : (getFilesTrainBoth cfg.datasetsDir nm1 nm2).length = 1500 := by
    unfold getFilesTrainBoth
    simp only [List.length_append, List.length_drop, List.length_map]
    rw [hb1, hb2]
  refine ⟨hb1, hb2, hev, htr, ?_⟩
  unfold getDataloadersTrain
  have hpool : normTrainPool cfg nm1 nm2 = getFilesTrainBoth cfg.datasetsDir nm1 nm2 := by
    unfold normTrainPool
    rw [hb, if_pos rfl]
  rw [hpool]
  set tf := applyPerm (R 42 0 (getFilesTrainBoth cfg.datasetsDir nm1 nm2).length)
    (getFilesTrainBoth cfg.datasetsDir nm1 nm2) with htf
  have hlen : tf.length = 1500 := by
    rw [htf, applyPerm_length _ _ (hR 42 0 _), htr]
  have hk : pySplitIdx tf.length cfg.normalSplit = 1200 := by
    rw [hlen, hs]
    unfold pySplitIdx
    norm_num
    decide
  refine ⟨tf.take 1200, tf.drop 1200, ?_, ?_, ?_⟩
  · unfold splitNormal
    rw [hk, hlen, if_pos (by norm_num)]
  · rw [List.length_take, hlen]
    omega
  · rw [List.length_drop, hlen]

theorem c1_partition_counts_witness :
    (balance (List.replicate 1000 "a") (List.replicate 950 "b")).1.length = 950 ∧
    (balance (List.replicate 1000 "a") (List.replicate 950 "b")).2.length = 950 ∧
    (getFilesEvalBoth "" (List.replicate 1000 "a") (List.replicate 950 "b")
      [] []).1.length = 400 ∧
    (getFilesTrainBoth "" (List.replicate 1000 "a") (List.replicate 950 "b")).length
      = 1500 ∧
    ∃ t v, getDataloadersTrain (fun _ _ n => List.range n)
        ⟨0, true, "", 4/5, 1/2⟩ (List.replicate 1000 "a") (List.replicate 950 "b")
        = Sum.inr (t, v) ∧ t.length = 1200 ∧ v.length = 300 :=
  c1_partition_counts (fun _ _ n => List.range n) ⟨0, true, "", 4/5, 1/2⟩
    (List.replicate 1000 "a") (List.replicate 950 "b") [] []
    (fun _ _ _ => List.Perm.refl _) rfl rfl
    (by rw [List.length_replicate]) (by rw [List.length_replicate])

/-- C8. The pre-split permutation is seeded with the literal constant 42, never
with the configured seed: two configurations identical except for `seed`
produce identical train, validation and test partitions. -/
theorem c8_seed_never_used (R : Nat → Nat → Nat → List Nat) (cfg : CXRConfig)
    (s : Nat) (nm1 nm2 am1 am2 : List String) :
    getDataloadersTrain R { cfg with seed := s } nm1 nm2
      = getDataloadersTrain R cfg nm1 nm2 ∧
    getDataloadersTest R { cfg with seed := s } nm1 nm2 am1 am2
      = getDataloadersTest R cfg nm1 nm2 am1 am2 :=
  ⟨rfl, rfl⟩

/-- Flatten the result of the train branch to the list of all paths it serves
(train split plus validation split, when the latter exists). -/
def trainValFiles : CXRTrainOut → List String
  | Sum.inl l => l
  | Sum.inr (t, v) => t ++ v

/-- Flatten the two test splits to the list of all image paths they serve. -/
def testPathFiles (x : CXRTestOut × CXRTestOut) : List String :=
  x.1.1 ++ x.1.2.1 ++ x.2.1 ++ x.2.2.1

theorem trainValFiles_splitNormal (tf : List String) (q : ℚ) :
    trainValFiles (splitNormal tf q) = tf := by
  unfold splitNormal
  by_cases h : pySplitIdx tf.length q ≠ tf.length
  · rw [if_pos h]
    show tf.take _ ++ tf.drop _ = tf
    exact List.take_append_drop _ tf
  · rw [if_neg h]
    rfl

theorem mem_trainValFiles_getDataloadersTrain (R : Nat → Nat → Nat → List Nat)
    (cfg : CXRConfig) (nm1 nm2 : List String)
    (hR : ∀ s i n, (R s i n).Perm (List.range n)) (a : String) :
    a ∈ trainValFiles (getDataloadersTrain R cfg nm1 nm2) ↔
      a ∈ normTrainPool cfg nm1 nm2 := by
  unfold getDataloadersTrain
  rw [trainValFiles_splitNormal]
  exact applyPerm_mem_iff _ _ (hR 42 0 _) a

theorem mem_testPathFiles_getDataloadersTest (R : Nat → Nat → Nat → List Nat)
    (cfg : CXRConfig) (nm1 nm2 am1 am2 : List String)
    (hR : ∀ s i n, (R s i n).Perm (List.range n)) (a : String)
    (h : a ∈ testPathFiles (getDataloadersTest R cfg nm1 nm2 am1 am2)) :
    a ∈ (normAnomEval cfg nm1 nm2 am1 am2).1 ∨
      a ∈ (normAnomEval cfg nm1 nm2 am1 am2).2.1 := by
  unfold getDataloadersTest splitEval testPathFiles at h
  simp only [List.mem_append] at h
  have hn := applyPerm_mem_iff (R 42 0 (normAnomEval cfg nm1 nm2 am1 am2).1.length)
    (normAnomEval cfg nm1 nm2 am1 am2).1 (hR 42 0 _) a
  have hm := applyPerm_mem_iff (R 42 1 (normAnomEval cfg nm1 nm2 am1 am2).2.1.length)
    (normAnomEval cfg nm1 nm2 am1 am2).2.1 (hR 42 1 _) a
  rcases h with ((h | h) | h) | h
  · exact Or.inl (hn.mp ((List.take_sublist _ _).subset h))
  · exact Or.inr (hm.mp ((List.take_sublist _ _).subset h))
  · exact Or.inl (hn.mp ((List.drop_sublist _ _).subset h))
  · exact Or.inr (hm.mp ((List.drop_sublist _ _).subset h))

theorem balance_fst_sublist (l1 l2 : List α) : (balance l1 l2).1.Sublist l1 := by
  unfold balance
  split
  · exact List.take_sublist _ _
  · exact List.Sublist.refl _

theorem balance_snd_sublist (l1 l2 : List α) : (balance l1 l2).2.Sublist l2 := by
  unfold balance
  split
  · exact List.Sublist.refl _
  · exact List.take_sublist _ _

theorem nodup_mem_drop_not_mem_take {l : List α} (h : l.Nodup) (n : Nat) {a : α}
    (hd : a ∈ l.drop n) : a ∉ l.take n := by
  have h' := h
  rw [← List.take_append_drop n l, List.nodup_append] at h'
  exact fun ht => h'.2.2 ht hd

/-- Both-subgroups core disjointness: any path in the train pool is in neither
test path list, provided the joined manifests hold no duplicate path. -/
theorem train_test_disjoint_both (dd : String) (nm1 nm2 am1 am2 : List String)
    (hnd : (nm1.map (joinDD dd) ++ (nm2.map (joinDD dd) ++
      (am1.map (joinDD dd) ++ am2.map (joinDD dd)))).Nodup) :
    ∀ a ∈ getFilesTrainBoth dd nm1 nm2,
      a ∉ (getFilesEvalBoth dd nm1 nm2 am1 am2).1 ∧
      a ∉ (getFilesEvalBoth dd nm1 nm2 am1 am2).2.1 := by
  intro a ha
  obtain ⟨hn1, hrest, d1⟩ := List.nodup_append.mp hnd
  obtain ⟨hn2, _, d2⟩ := List.nodup_append.mp hrest
  have sb1 : ((balance nm1 nm2).1.map (joinDD dd)).Sublist (nm1.map (joinDD dd)) :=
    (balance_fst_sublist nm1 nm2).map _
  have sb2 : ((balance nm1 nm2).2.map (joinDD dd)).Sublist (nm2.map (joinDD dd)) :=
    (balance_snd_sublist nm1 nm2).map _
  have sc1 : ((balance am1 am2).1.map (joinDD dd)).Sublist (am1.map (joinDD dd)) :=
    (balance_fst_sublist am1 am2).map _
  have sc2 : ((balance am1 am2).2.map (joinDD dd)).Sublist (am2.map (joinDD dd)) :=
    (balance_snd_sublist am1 am2).map _
  have hb1nd : ((balance nm1 nm2).1.map (joinDD dd)).Nodup := hn1.sublist sb1
  have hb2nd : ((balance nm1 nm2).2.map (joinDD dd)).Nodup := hn2.sublist sb2
  have hanom : ∀ b, b ∈ (getFilesEvalBoth dd nm1 nm2 am1 am2).2.1 →
      b ∈ am1.map (joinDD dd) ++ am2.map (joinDD dd) := by
    intro b hb
    have hb' : b ∈ (balance am1 am2).1.map (joinDD dd) ++
        (balance am1 am2).2.map (joinDD dd) :=
      (List.take_sublist _ _).subset hb
    rcases List.mem_append.mp hb' with h | h
    · exact List.mem_append_left _ (sc1.subset h)
    · exact List.mem_append_right _ (sc2.subset h)
  have ha' : a ∈ ((balance nm1 nm2).1.map (joinDD dd)).drop 200 ∨
      a ∈ ((balance nm1 nm2).2.map (joinDD dd)).drop 200 := List.mem_append.mp ha
  rcases ha' with h | h
  · have haj1 : a ∈ nm1.map (joinDD dd) := sb1.subset ((List.drop_sublist _ _).subset h)
    constructor
    · intro hmem
      rcases List.mem_append.mp hmem with ht | ht
      · exact nodup_mem_drop_not_mem_take hb1nd 200 h ht
      · exact d1 haj1 (List.mem_append_left _ (sb2.subset ((List.take_sublist _ _).subset ht)))
    · intro hmem
      exact d1 haj1 (List.mem_append_right _ (hanom a hmem))
  · have haj2 : a ∈ nm2.map (joinDD dd) := sb2.subset ((List.drop_sublist _ _).subset h)
    constructor
    · intro hmem
      rcases List.mem_append.mp hmem with ht | ht
      · exact d1 (sb1.subset ((List.take_sublist _ _).subset ht))
          (List.mem_append_left _ haj2)
      · exact nodup_mem_drop_not_mem_take hb2nd 200 h ht
    · intro hmem
      exact d2 haj2 (hanom a hmem)

/-- Single-subgroup core disjointness. -/
theorem train_test_disjoint_single (dd : String) (nm1 nm2 am1 am2 : List String)
    (hnd : (nm1.map (joinDD dd) ++ (nm2.map (joinDD dd) ++
      (am1.map (joinDD dd) ++ am2.map (joinDD dd)))).Nodup) :
    ∀ a ∈ getFilesTrainSingle dd nm1,
      a ∉ (getFilesEvalSingle dd nm1 am1).1 ∧
      a ∉ (getFilesEvalSingle dd nm1 am1).2.1 := by
  intro a ha
  obtain ⟨hn1, _, d1⟩ := List.nodup_append.mp hnd
  have haj1 : a ∈ nm1.map (joinDD dd) := (List.drop_sublist _ _).subset ha
  constructor
  · exact nodup_mem_drop_not_mem_take hn1 200 ha
  · intro hmem
    exact d1 haj1 (List.mem_append_right _
      (List.mem_append_left _ ((List.take_sublist _ _).subset hmem)))

/-- C2. For every valid configuration (manifests with no duplicate path), no
image path returned in a train or validation partition also appears in a test
partition; the train pool is exactly the elements of each balanced normal
manifest from index 200 onward, and the normal-test partition is exactly the
first 200 elements of each balanced normal manifest. -/
theorem c2_train_test_disjoint (R : Nat → Nat → Nat → List Nat) (cfg : CXRConfig)
    (nm1 nm2 am1 am2 : List String)
    (hR : ∀ s i n, (R s i n).Perm (List.range n))
    (hnd : (nm1.map (joinDD cfg.datasetsDir) ++ (nm2.map (joinDD cfg.datasetsDir) ++
      (am1.map (joinDD cfg.datasetsDir) ++ am2.map (joinDD cfg.datasetsDir)))).Nodup) :
    getFilesTrainBoth cfg.datasetsDir nm1 nm2
      = ((balance nm1 nm2).1.map (joinDD cfg.datasetsDir)).drop 200
        ++ ((balance nm1 nm2).2.map (joinDD cfg.datasetsDir)).drop 200 ∧
    (getFilesEvalBoth cfg.datasetsDir nm1 nm2 am1 am2).1
      = ((balance nm1 nm2).1.map (joinDD cfg.datasetsDir)).take 200
        ++ ((balance nm1 nm2).2.map (joinDD cfg.datasetsDir)).take 200 ∧
    List.Disjoint (trainValFiles (getDataloadersTrain R cfg nm1 nm2))
      (testPathFiles (getDataloadersTest R cfg nm1 nm2 am1 am2)) := by
  refine ⟨rfl, rfl, ?_⟩
  intro a ha hb
  have ha' := (mem_trainValFiles_getDataloadersTrain R cfg nm1 nm2 hR a).mp ha
  have hb' := mem_testPathFiles_getDataloadersTest R cfg nm1 nm2 am1 am2 hR a hb
  by_cases hsx : cfg.sexBoth = true
  · simp only [normTrainPool, hsx, if_true] at ha'
    simp only [normAnomEval, hsx, if_true] at hb'
    have hcore := train_test_disjoint_both cfg.datasetsDir nm1 nm2 am1 am2 hnd a ha'
    rcases hb' with h | h
    exacts [hcore.1 h, hcore.2 h]
  · simp only [normTrainPool, hsx, if_false] at ha'
    simp only [normAnomEval, hsx, if_false] at hb'
    have hcore := train_test_disjoint_single cfg.datasetsDir nm1 nm2 am1 am2 hnd a ha'
    rcases hb' with h | h
    exacts [hcore.1 h, hcore.2 h]

theorem c2_train_test_disjoint_witness :
    getFilesTrainBoth "" ["a", "b"] ["c"] = ((balance ["a", "b"] ["c"]).1.map
        (joinDD "")).drop 200 ++ ((balance ["a", "b"] ["c"]).2.map (joinDD "")).drop 200 ∧
    (getFilesEvalBoth "" ["a", "b"] ["c"] ["d"] ["e"]).1
      = ((balance ["a", "b"] ["c"]).1.map (joinDD "")).take 200
        ++ ((balance ["a", "b"] ["c"]).2.map (joinDD "")).take 200 ∧
    List.Disjoint
      (trainValFiles (getDataloadersTrain (fun _ _ n => List.range n)
        ⟨0, true, "", 1/2, 1/2⟩ ["a", "b"] ["c"]))
      (testPathFiles (getDataloadersTest (fun _ _ n => List.range n)
        ⟨0, true, "", 1/2, 1/2⟩ ["a", "b"] ["c"] ["d"] ["e"])) :=
  c2_train_test_disjoint (fun _ _ n => List.range n) ⟨0, true, "", 1/2, 1/2⟩
    ["a", "b"] ["c"] ["d"] ["e"] (fun _ _ _ => List.Perm.refl _) (by decide)

theorem balance_lengths (l1 l2 : List α) :
    (balance l1 l2).1.length = min l1.length l2.length ∧
    (balance l1 l2).2.length = min l1.length l2.length := by
  unfold balance
  split
  · rename_i h
    refine ⟨?_, ?_⟩
    · show (l1.take l2.length).length = _
      rw [List.length_take]
      omega
    · show l2.length = _
      omega
  · rename_i h
    refine ⟨?_, ?_⟩
    · show l1.length = _
      omega
    · show (l2.take l1.length).length = _
      rw [List.length_take]

/-- Counterexample to C4 as stated: for a single-subgroup manifest holding one
normal path and one anomalous path, the evaluation branch returns one normal
path but a normal-label list of length 200 (and one anomalous path but an
anomalous-label list of length 200): the label lists are not generated in
lockstep with the path lists. -/
theorem c4_labels_counterexample :
    ¬ ((getFilesEvalSingle "" ["a"] ["b"]).2.2.1.length
        = (getFilesEvalSingle "" ["a"] ["b"]).1.length ∧
      (getFilesEvalSingle "" ["a"] ["b"]).2.2.2.length
        = (getFilesEvalSingle "" ["a"] ["b"]).2.1.length) := by
  decide

/-- C4 amended: in the both-subgroups evaluation branch the normal-label list
always has the length of the normal-path list, while the anomalous-label list
has fixed length 400 (matching the anomalous-path list only when each balanced
anomalous manifest holds at least 200 paths); in the single-subgroup branch
both label lists have fixed length 200, matching the path lists only when the
respective manifest holds at least 200 paths. -/
theorem c4_label_lengths (dd : String) (nm1 nm2 am1 am2 : List String) :
    (getFilesEvalBoth dd nm1 nm2 am1 am2).2.2.1.length
      = (getFilesEvalBoth dd nm1 nm2 am1 am2).1.length ∧
    (getFilesEvalBoth dd nm1 nm2 am1 am2).2.2.2.length = 400 ∧
    (200 ≤ am1.length → 200 ≤ am2.length →
      (getFilesEvalBoth dd nm1 nm2 am1 am2).2.2.2.length
        = (getFilesEvalBoth dd nm1 nm2 am1 am2).2.1.length) ∧
    (getFilesEvalSingle dd nm1 am1).2.2.1.length = 200 ∧
    (getFilesEvalSingle dd nm1 am1).2.2.2.length = 200 ∧
    (200 ≤ nm1.length → (getFilesEvalSingle dd nm1 am1).2.2.1.length
        = (getFilesEvalSingle dd nm1 am1).1.length) ∧
    (200 ≤ am1.length → (getFilesEvalSingle dd nm1 am1).2.2.2.length
        = (getFilesEvalSingle dd nm1 am1).2.1.length) := by
  have hbal := balance_lengths am1 am2
  refine ⟨?_, ?_, ?_, ?_, ?_, ?_, ?_⟩
  · simp [getFilesEvalBoth]
  · simp [getFilesEvalBoth]
  · intro h1 h2
    simp only [getFilesEvalBoth, List.length_replicate, List.length_take,
      List.length_append, List.length_map]
    rw [hbal.1, hbal.2]
    omega
  · rfl
  · rfl
  · intro h
    simp only [getFilesEvalSingle, List.length_replicate, List.length_take,
      List.length_map]
    omega
  · intro h
    simp only [getFilesEvalSingle, List.length_replicate, List.length_take,
      List.length_map]
    omega

theorem c4_label_lengths_witness :
    (getFilesEvalBoth "" [] [] (List.replicate 200 "c") (List.replicate 200 "d")).2.2.1.length
      = (getFilesEvalBoth "" [] [] (List.replicate 200 "c") (List.replicate 200 "d")).1.length ∧
    (getFilesEvalBoth "" [] [] (List.replicate 200 "c") (List.replicate 200 "d")).2.2.2.length
      = 400 ∧
    (200 ≤ (List.replicate 200 "c").length → 200 ≤ (List.replicate 200 "d").length →
      (getFilesEvalBoth "" [] [] (List.replicate 200 "c") (List.replicate 200 "d")).2.2.2.length
        = (getFilesEvalBoth "" [] [] (List.replicate 200 "c") (List.replicate 200 "d")).2.1.length) ∧
    (getFilesEvalSingle "" [] (List.replicate 200 "c")).2.2.1.length = 200 ∧
    (getFilesEvalSingle "" [] (List.replicate 200 "c")).2.2.2.length = 200 ∧
    (200 ≤ ([] : List String).length → (getFilesEvalSingle "" [] (List.replicate 200 "c")).2.2.1.length
        = (getFilesEvalSingle "" [] (List.replicate 200 "c")).1.length) ∧
    (200 ≤ (List.replicate 200 "c").length →
      (getFilesEvalSingle "" [] (List.replicate 200 "c")).2.2.2.length
        = (getFilesEvalSingle "" [] (List.replicate 200 "c")).2.1.length) :=
  c4_label_lengths "" [] [] (List.replicate 200 "c") (List.replicate 200 "d")

/-- Python exception classes relevant to manifest resolution.  The
`manifestNotFound` constructor stands for the specified
`ManifestNotFoundError`; the embedding of the code never produces it. -/
inductive PyErr where
  | indexError : PyErr
  | manifestNotFound : PyErr
deriving DecidableEq

/-- Python list indexing `l[i]`: raises `IndexError` out of range. -/
def listGetE (l : List α) (i : Nat) : Except PyErr α :=
  match l.get? i with
  | some x => Except.ok x
  | none => Except.error PyErr.indexError

/-- Manifest resolution and read (CXR.py lines 28-48 and 75-93): `glob`
returned `files` (each entry the line list of one matched split file); the code
reads `file[0]` and, in both-subgroups mode, also `file[1]`.  No match count is
ever checked. -/
def readManifests (both : Bool) (files : List (List String)) :
    Except PyErr (List String × List String) :=
  match listGetE files 0 with
  | Except.error e => Except.error e
  | Except.ok p1 =>
    if both then
      match listGetE files 1 with
      | Except.error e => Except.error e
      | Except.ok p2 => Except.ok (p1, p2)
    else Except.ok (p1, [])

/-- Counterexample to C7 as stated: a pattern matching zero files makes the
reader fail with `IndexError` (not `ManifestNotFoundError`), and in
single-subgroup mode a pattern matching two files raises no error at all — the
first match is used silently. -/
theorem c7_manifest_error_counterexample :
    readManifests false [] = Except.error PyErr.indexError ∧
    PyErr.indexError ≠ PyErr.manifestNotFound ∧
    readManifests false [["a"], ["b"]] = Except.ok (["a"], []) := by
  refine ⟨rfl, ?_, rfl⟩
  decide

/-- C7 amended: zero matches fail with `IndexError` (as does a single match in
both-subgroups mode, when `file[1]` is read); surplus matches beyond the
expected count raise no error; `ManifestNotFoundError` is never raised. -/
theorem c7_manifest_resolution (both : Bool) (files : List (List String)) :
    (files = [] → readManifests both files = Except.error PyErr.indexError) ∧
    (both = true → files.length = 1 →
      readManifests both files = Except.error PyErr.indexError) ∧
    (both = false → 1 ≤ files.length →
      ∃ p, readManifests both files = Except.ok p) ∧
    (both = true → 2 ≤ files.length →
      ∃ p, readManifests both files = Except.ok p) ∧
    (∀ e, readManifests both files = Except.error e → e = PyErr.indexError) := by
  refine ⟨?_, ?_, ?_, ?_, ?_⟩
  · intro h
    subst h
    cases both <;> rfl
  · intro hb hl
    subst hb
    obtain ⟨f0, rfl⟩ := List.length_eq_one.mp hl
    rfl
  · intro hb hl
    subst hb
    rcases files with _ | ⟨f0, rest⟩
    · simp at hl
    · exact ⟨(f0, []), rfl⟩
  · intro hb hl
    subst hb
    rcases files with _ | ⟨f0, _ | ⟨f1, rest⟩⟩
    · simp at hl
    · simp at hl
    · exact ⟨(f0, f1), rfl⟩
  · intro e he
    cases both
    · rcases files with _ | ⟨f0, rest⟩
      · rw [show readManifests false [] = Except.error PyErr.indexError from rfl] at he
        injection he with h
        exact h.symm
      · rw [show readManifests false (f0 :: rest) = Except.ok (f0, []) from rfl] at he
        exact Except.noConfusion he
    · rcases files with _ | ⟨f0, _ | ⟨f1, rest⟩⟩
      · rw [show readManifests true [] = Except.error PyErr.indexError from rfl] at he
        injection he with h
        exact h.symm
      · rw [show readManifests true [f0] = Except.error PyErr.indexError from rfl] at he
        injection he with h
        exact h.symm
      · rw [show readManifests true (f0 :: f1 :: rest) = Except.ok (f0, f1) from rfl] at he
        exact Except.noConfusion he

theorem c7_manifest_resolution_witness :
    (([] : List (List String)) = [] →
      readManifests true [] = Except.error PyErr.indexError) ∧
    (true = true → ([] : List (List String)).length = 1 →
      readManifests true [] = Except.error PyErr.indexError) ∧
    (true = false → 1 ≤ ([] : List (List String)).length →
      ∃ p, readManifests true [] = Except.ok p) ∧
    (true = true → 2 ≤ ([] : List (List String)).length →
      ∃ p, readManifests true [] = Except.ok p) ∧
    (∀ e, readManifests true [] = Except.error e → e = PyErr.indexError) :=
  c7_manifest_resolution true []

/-- Default of `--only_simclr` (CCD_trainer.py line 20): `type=int, default=128`. -/
def ccdDefaultOnlySimclr : Int := 128

/-- Python truthiness of an int: nonzero is truthy. -/
def pyTruthy (n : Int) : Bool := n != 0

/-- The loss policy of `train_step` (CCD_trainer.py lines 144-182): both losses
are computed; the first component is the loss that is back-propagated and fed
to the optimizer step, the second the returned loss mapping. -/
def ccdTrainStep (onlySimclr : Int) (lossCla lossCon : ℚ) :
    ℚ × List (String × ℚ) :=
  if pyTruthy onlySimclr then (lossCon, [("loss_con", lossCon)])
  else (lossCon + lossCla,
    [("loss_cla", lossCla), ("loss_con", lossCon), ("loss", lossCon + lossCla)])

/-- C9. `only_simclr` defaults to the truthy integer 128, so a default-config
run takes the contrastive-only branch of `train_step`: the backward/optimizer
loss is the contrastive loss alone (the computed classification loss is
excluded) and the returned loss mapping holds exactly the key `loss_con`. -/
theorem c9_only_simclr_default (lossCla lossCon : ℚ) :
    pyTruthy ccdDefaultOnlySimclr = true ∧
    ccdTrainStep ccdDefaultOnlySimclr lossCla lossCon
      = (lossCon, [("loss_con", lossCon)]) ∧
    (ccdTrainStep ccdDefaultOnlySimclr lossCla lossCon).2.map Prod.fst
      = ["loss_con"] :=
  ⟨rfl, rfl, rfl⟩

/-- A torch 3-d tensor (channels × height × width) as nested lists. -/
abbrev PyTensor3 := List (List (List ℚ))

/-- `image.shape[-1]` of a (channels, height, width) tensor. -/
def lastDim (img : PyTensor3) : Nat := ((img.headD []).headD []).length

/-- `torch.zeros_like(image)` (CXR.py line 219). -/
def zerosLikeT (img : PyTensor3) : PyTensor3 :=
  img.map (fun ch => ch.map (fun row => row.map (fun _ => 0)))

/-- `torch.eye(n)` rows. -/
def eyeT (n : Nat) : List (List ℚ) :=
  (List.range n).map (fun i => (List.range n).map (fun j => if i = j then 1 else 0))

/-- The mask built by `AnomalDataset.__getitem__` (CXR.py lines 209-227):
`torch.zeros_like(image)`, replaced by `torch.eye(image.shape[-1]).unsqueeze(0)`
when the label is nonzero. -/
def anomalItemMask (label : Int) (img : PyTensor3) : PyTensor3 :=
  if label ≠ 0 then [eyeT (lastDim img)] else zerosLikeT img

/-- C10. For a label-0 sample the mask is an all-zero tensor with the shape of
the image (all channels); for a label-1 (nonzero) sample it is the
`image_size × image_size` identity with exactly one channel; the two shapes
differ whenever the image has more than one channel. -/
theorem c10_mask_shapes (C W : Nat) (img : PyTensor3) (label : Int)
    (hC : img.length = C) (hCpos : 0 < C) (hWpos : 0 < W)
    (hch : ∀ ch ∈ img, ch.length = W ∧ ∀ row ∈ ch, row.length = W) :
    (label = 0 → anomalItemMask label img = zerosLikeT img ∧
      (zerosLikeT img).length = C ∧
      (∀ ch ∈ zerosLikeT img, ch.length = W ∧
        ∀ row ∈ ch, row.length = W ∧ ∀ x ∈ row, x = 0)) ∧
    (label ≠ 0 → anomalItemMask label img = [eyeT W] ∧
      (anomalItemMask label img).length = 1 ∧
      (eyeT W).length = W ∧ (∀ row ∈ eyeT W, row.length = W) ∧
      (∀ i j, i < W → j < W → ∃ row, (eyeT W).get? i = some row ∧
        row.get? j = some (if i = j then (1 : ℚ) else 0))) ∧
    (1 < C → (anomalItemMask 1 img).length ≠ (anomalItemMask 0 img).length) := by
  have hW : lastDim img = W := by
    rcases img with _ | ⟨ch0, rest⟩
    · simp at hC
      omega
    · rcases (hch ch0 (List.mem_cons_self _ _)) with ⟨hl, hrow⟩
      rcases ch0 with _ | ⟨row0, rows⟩
      · simp at hl
        omega
      · exact hrow row0 (List.mem_cons_self _ _)
  have hz : (zerosLikeT img).length = C := by
    rw [zerosLikeT, List.length_map, hC]
  refine ⟨?_, ?_, ?_⟩
  · intro h0
    subst h0
    refine ⟨by rw [anomalItemMask, if_neg (by simp)], hz, ?_⟩
    intro ch hchm
    obtain ⟨ch', hch', rfl⟩ := List.mem_map.mp hchm
    obtain ⟨hl, hrow⟩ := hch ch' hch'
    refine ⟨by rw [List.length_map, hl], ?_⟩
    intro row hrowm
    obtain ⟨row', hrow', rfl⟩ := List.mem_map.mp hrowm
    refine ⟨by rw [List.length_map, hrow row' hrow'], ?_⟩
    intro x hx
    obtain ⟨_, _, rfl⟩ := List.mem_map.mp hx
    rfl
  · intro hne
    have heq : anomalItemMask label img = [eyeT W] := by
      rw [anomalItemMask, if_pos hne, hW]
    refine ⟨heq, by rw [heq]; rfl, ?_, ?_, ?_⟩
    · rw [eyeT, List.length_map, List.length_range]
    · intro row hrowm
      obtain ⟨i, _, rfl⟩ := List.mem_map.mp hrowm
      rw [List.length_map, List.length_range]
    · intro i j hi hj
      refine ⟨(List.range W).map (fun j => if i = j then 1 else 0), ?_, ?_⟩
      · rw [eyeT, List.get?_map, List.get?_range hi]
        rfl
      · rw [List.get?_map, List.get?_range hj]
        rfl
  · intro hgt
    have h1 : (anomalItemMask 1 img).length = 1 := by
      rw [anomalItemMask, if_pos (by norm_num)]
      rfl
    have h0 : (anomalItemMask 0 img).length = C := by
      rw [anomalItemMask, if_neg (by simp)]
      exact hz
    rw [h1, h0]
    omega

theorem c10_mask_shapes_witness :
    (((1 : Int) = 0 → anomalItemMask 1 [[[5, 6], [7, 8]], [[1, 2], [3, 4]]]
        = zerosLikeT [[[5, 6], [7, 8]], [[1, 2], [3, 4]]] ∧
      (zerosLikeT [[[5, 6], [7, 8]], [[1, 2], [3, 4]]]).length = 2 ∧
      (∀ ch ∈ zerosLikeT [[[5, 6], [7, 8]], [[1, 2], [3, 4]]], ch.length = 2 ∧
        ∀ row ∈ ch, row.length = 2 ∧ ∀ x ∈ row, x = 0)) ∧
    ((1 : Int) ≠ 0 → anomalItemMask 1 [[[5, 6], [7, 8]], [[1, 2], [3, 4]]]
        = [eyeT 2] ∧
      (anomalItemMask 1 [[[5, 6], [7, 8]], [[1, 2], [3, 4]]]).length = 1 ∧
      (eyeT 2).length = 2 ∧ (∀ row ∈ eyeT 2, row.length = 2) ∧
      (∀ i j, i < 2 → j < 2 → ∃ row, (eyeT 2).get? i = some row ∧
        row.get? j = some (if i = j then (1 : ℚ) else 0))) ∧
    (1 < 2 → (anomalItemMask 1 [[[5, 6], [7, 8]], [[1, 2], [3, 4]]]).length
        ≠ (anomalItemMask 0 [[[5, 6], [7, 8]], [[1, 2], [3, 4]]]).length)) :=
  c10_mask_shapes 2 2 [[[5, 6], [7, 8]], [[1, 2], [3, 4]]] 1 rfl (by norm_num)
    (by norm_num) (by decide)

/-- One epoch's inner batch loop of CCD `train()` (CCD_trainer.py lines
110-138), tracking only what controls termination: `i_iter` increments per
batch; when `i_iter % max_steps == 0` the loop saves and returns (`true`).
Arguments: current `i_iter`, batches left in the epoch. -/
def ccdEpoch (maxSteps : Nat) : Nat → Nat → Nat × Bool
  | iIter, 0 => (iIter, false)
  | iIter, Nat.succ b =>
    if (iIter + 1) % maxSteps = 0 then (iIter + 1, true)
    else ccdEpoch maxSteps (iIter + 1) b

/-- The epoch loop `for epoch in range(0, max_epochs)` of CCD `train()`
(CCD_trainer.py lines 105-138).  Arguments: current `i_iter`, epochs left. -/
def ccdOuter (maxSteps B : Nat) : Nat → Nat → Nat × Bool
  | iIter, 0 => (iIter, false)
  | iIter, Nat.succ e =>
    if (ccdEpoch maxSteps iIter B).2 then ccdEpoch maxSteps iIter B
    else ccdOuter maxSteps B (ccdEpoch maxSteps iIter B).1 e

/-- CCD `train()` (CCD_trainer.py lines 96-141) over a loader of `B` batches
per epoch: result is (total steps, terminated-by-step-budget?, a final
`save_model` ran).  Both exits call `save_model` (lines 137 and 141). -/
def ccdTrain (maxEpochs maxSteps B : Nat) : Nat × Bool × Bool :=
  if (ccdOuter maxSteps B 0 maxEpochs).2 then
    ((ccdOuter maxSteps B 0 maxEpochs).1, true, true)
  else ((ccdOuter maxSteps B 0 maxEpochs).1, false, true)

/-- One pass of AMCons `train()` over the loader (AMCtrainer.py lines 167-207):
`config.step` increments per batch; when `step >= max_steps` the loop saves and
returns (`true`). -/
def amcPass (maxSteps : Nat) : Nat → Nat → Nat × Bool
  | step, 0 => (step, false)
  | step, Nat.succ b =>
    if maxSteps ≤ step + 1 then (step + 1, true)
    else amcPass maxSteps (step + 1) b

/-- AMCons `train()` (AMCtrainer.py lines 159-210): `while True` around the
loader; `i_epoch` increments after each full pass and is never compared to the
configured epoch budget.  Fuel bounds the unbounded loop; the result is
(final step, final `i_epoch`, a final `save_model` ran). -/
def amcRun (maxSteps B : Nat) : Nat → Nat → Nat → Option (Nat × Nat × Bool)
  | 0, _, _ => none
  | Nat.succ f, step, ep =>
    if (amcPass maxSteps step B).2 then some ((amcPass maxSteps step B).1, ep, true)
    else amcRun maxSteps B f (amcPass maxSteps step B).1 (ep + 1)

theorem ccdEpoch_no_hit (maxSteps : Nat) :
    ∀ b iIter, iIter + b < maxSteps → ccdEpoch maxSteps iIter b = (iIter + b, false) := by
  intro b
  induction b with
  | zero => intro iIter h; rfl
  | succ b ih =>
    intro iIter h
    have hc : ¬(iIter + 1) % maxSteps = 0 := by
      rw [Nat.mod_eq_of_lt (by omega)]
      omega
    show (if (iIter + 1) % maxSteps = 0 then (iIter + 1, true)
      else ccdEpoch maxSteps (iIter + 1) b) = _
    rw [if_neg hc, ih (iIter + 1) (by omega)]
    have harith : iIter + 1 + b = iIter + (b + 1) := by omega
    rw [harith]

theorem ccdEpoch_hit (maxSteps : Nat) :
    ∀ b iIter, iIter < maxSteps → maxSteps ≤ iIter + b →
      ccdEpoch maxSteps iIter b = (maxSteps, true) := by
  intro b
  induction b with
  | zero => intro iIter h1 h2; omega
  | succ b ih =>
    intro iIter h1 h2
    show (if (iIter + 1) % maxSteps = 0 then (iIter + 1, true)
      else ccdEpoch maxSteps (iIter + 1) b) = _
    by_cases he : iIter + 1 = maxSteps
    · rw [if_pos (by rw [he, Nat.mod_self]), he]
    · have hlt : iIter + 1 < maxSteps := by omega
      have hc : ¬(iIter + 1) % maxSteps = 0 := by
        rw [Nat.mod_eq_of_lt hlt]
        omega
      rw [if_neg hc]
      exact ih (iIter + 1) hlt (by omega)

theorem ccdOuter_spec (maxSteps B : Nat) :
    ∀ e iIter, iIter < maxSteps →
      ccdOuter maxSteps B iIter e =
        if maxSteps ≤ iIter + e * B then (maxSteps, true)
        else (iIter + e * B, false) := by
  intro e
  induction e with
  | zero =>
    intro iIter h
    rw [Nat.zero_mul, Nat.add_zero, if_neg (by omega)]
    rfl
  | succ e ih =>
    intro iIter h
    show (if (ccdEpoch maxSteps iIter B).2 then ccdEpoch maxSteps iIter B
      else ccdOuter maxSteps B (ccdEpoch maxSteps iIter B).1 e) = _
    rcases le_or_lt maxSteps (iIter + B) with hge | hlt
    · have hE := ccdEpoch_hit maxSteps B iIter h hge
      rw [hE]
      have hcond : maxSteps ≤ iIter + (e + 1) * B := by
        calc maxSteps ≤ iIter + B := hge
        _ ≤ iIter + (B + e * B) := by omega
        _ = iIter + (e + 1) * B := by ring
      rw [if_pos rfl, if_pos hcond]
    · have hE := ccdEpoch_no_hit maxSteps B iIter hlt
      rw [hE]
      rw [if_neg (by simp), ih (iIter + B) hlt]
      have harith : iIter + B + e * B = iIter + (e + 1) * B := by ring
      rw [harith]

theorem amcPass_hit (maxSteps : Nat) :
    ∀ b step, (amcPass maxSteps step b).2 = true → maxSteps ≤ (amcPass maxSteps step b).1 := by
  intro b
  induction b with
  | zero => intro step h; exact absurd h (by simp [amcPass])
  | succ b ih =>
    intro step h
    by_cases hc : maxSteps ≤ step + 1
    · show maxSteps ≤ (amcPass maxSteps step (b + 1)).1
      simp only [amcPass, if_pos hc]
      exact hc
    · simp only [amcPass, if_neg hc] at h ⊢
      exact ih (step + 1) h

theorem amcRun_only_step_budget (maxSteps B : Nat) :
    ∀ f step ep r, amcRun maxSteps B f step ep = some r →
      maxSteps ≤ r.1 ∧ r.2.2 = true := by
  intro f
  induction f with
  | zero => intro step ep r h; exact absurd h (by simp [amcRun])
  | succ f ih =>
    intro step ep r h
    by_cases hc : (amcPass maxSteps step B).2 = true
    · simp only [amcRun, if_pos hc] at h
      injection h with h'
      subst h'
      exact ⟨amcPass_hit maxSteps B step hc, rfl⟩
    · simp only [amcRun, if_neg hc] at h
      exact ih _ _ _ h

/-- Counterexample to C6 as stated: with step budget 10, epoch budget 1 and a
2-batch loader, the AMCons loop runs 10 steps across 5 loader passes (final
`i_epoch` = 4), far past the point where the epoch budget was the first budget
reached (which would have stopped it after 1*2 = 2 steps). -/
theorem c6_amc_epoch_budget_counterexample :
    amcRun 10 2 20 0 0 = some (10, 4, true) ∧
    (10 : Nat) ≠ min 10 (1 * 2) ∧ (1 : Nat) < 4 := by
  refine ⟨by decide, by decide, by decide⟩

/-- C6 amended: the CCD loop terminates exactly at the first of the two
budgets — it executes `min max_steps (max_epochs * batches)` steps, the
step-budget exit fires iff the step budget comes first — and writes a final
checkpoint on both exits; the AMCons loop terminates only on its step budget
(its configured epoch budget is never consulted) and writes a final checkpoint
on its single exit. -/
theorem c6_termination (maxEpochs maxSteps B : Nat) (hs : 0 < maxSteps) :
    (ccdTrain maxEpochs maxSteps B).1 = min maxSteps (maxEpochs * B) ∧
    ((ccdTrain maxEpochs maxSteps B).2.1 = true ↔ maxSteps ≤ maxEpochs * B) ∧
    (ccdTrain maxEpochs maxSteps B).2.2 = true ∧
    (∀ f step ep r, amcRun maxSteps B f step ep = some r →
      maxSteps ≤ r.1 ∧ r.2.2 = true) := by
  have hO := ccdOuter_spec maxSteps B maxEpochs 0 hs
  rw [Nat.zero_add] at hO
  unfold ccdTrain
  rcases le_or_lt maxSteps (maxEpochs * B) with hc | hc
  · rw [if_pos hc] at hO
    rw [hO]
    refine ⟨?_, ?_, rfl, amcRun_only_step_budget maxSteps B⟩
    · show maxSteps = min maxSteps (maxEpochs * B)
      omega
    · show true = true ↔ maxSteps ≤ maxEpochs * B
      simp [hc]
  · rw [if_neg (by omega)] at hO
    rw [hO]
    refine ⟨?_, ?_, rfl, amcRun_only_step_budget maxSteps B⟩
    · show maxEpochs * B = min maxSteps (maxEpochs * B)
      omega
    · show false = true ↔ maxSteps ≤ maxEpochs * B
      simp
      omega

theorem c6_termination_witness :
    (ccdTrain 2 3 2).1 = min 3 (2 * 2) ∧
    ((ccdTrain 2 3 2).2.1 = true ↔ 3 ≤ 2 * 2) ∧
    (ccdTrain 2 3 2).2.2 = true ∧
    (∀ f step ep r, amcRun 3 2 f step ep = some r →
      3 ≤ r.1 ∧ r.2.2 = true) :=
  c6_termination 2 3 2 (by norm_num)

/-- `t.min()` of a torch tensor flattened to a list; empty tensors raise. -/
def tMin (l : List ℚ) : Option ℚ := l.min?

/-- `t.max()` of a torch tensor flattened to a list; empty tensors raise. -/
def tMax (l : List ℚ) : Option ℚ := l.max?

/-- `t.mean()`; undefined (NaN) on empty tensors. -/
def tMean (l : List ℚ) : Option ℚ :=
  if l.isEmpty then none else some (l.sum / l.length)

/-- `t * mask` where `mask = inp > mn` elementwise: zero the background. -/
def maskZeroL (mn : ℚ) (inp t : List ℚ) : List ℚ :=
  (inp.zip t).map (fun p => if mn < p.1 then p.2 else 0)

/-- `t[inp > mn]`: the entries of `t` at foreground positions of `inp`. -/
def maskSelectL (mn : ℚ) (inp t : List ℚ) : List ℚ :=
  ((inp.zip t).filter (fun p => decide (mn < p.1))).map Prod.snd

/-- `t[t > t.min()].min()` (AMCtrainer.py lines 234-235): the minimum of the
entries of `t` strictly above `t`'s own minimum — `t`'s foreground minimum. -/
def fgMinOf (t : List ℚ) : Option ℚ :=
  match tMin t with
  | none => none
  | some mt => tMin (maskSelectL mt t t)

/-- Per-image anomaly score of `val_step` (AMCtrainer.py lines 228-245), for
one image `inp` and its anomaly map `m` (both flattened): for MRI/CT mask the
map by the image foreground (`inp > inp.min()`), and when `get_images` is set
also subtract the masked map's foreground minimum and re-mask, then take the
maximum over the image foreground; for RF with dataset DDR take the unmasked
maximum; otherwise the unmasked mean. -/
def val_step_score (modality dataset : String) (getImages : Bool)
    (inp m : List ℚ) : Option ℚ :=
  if modality = "MRI" ∨ modality = "CT" then
    match tMin inp with
    | none => none
    | some mn =>
      if getImages then
        match fgMinOf (maskZeroL mn inp m) with
        | none => none
        | some sub =>
          tMax (maskSelectL mn inp
            (maskZeroL mn inp ((maskZeroL mn inp m).map (fun x => x - sub))))
      else tMax (maskSelectL mn inp (maskZeroL mn inp m))
  else if modality = "RF" ∧ dataset = "DDR" then tMax m
  else tMean m

/-- The claim's wording of the same policy: for MRI/CT restrict the map to the
foreground mask (pixels strictly above the image minimum), optionally rebase by
subtracting the restricted map's own foreground minimum, and score as the
foreground maximum (no re-masking step); for RF/DDR the unmasked maximum;
otherwise the unmasked mean. -/
def specAnomalyScore (modality dataset : String) (getImages : Bool)
    (inp m : List ℚ) : Option ℚ :=
  if modality = "MRI" ∨ modality = "CT" then
    match tMin inp with
    | none => none
    | some mn =>
      if getImages then
        match fgMinOf (maskZeroL mn inp m) with
        | none => none
        | some sub =>
          tMax (maskSelectL mn inp ((maskZeroL mn inp m).map (fun x => x - sub)))
      else tMax (maskSelectL mn inp (maskZeroL mn inp m))
  else if modality = "RF" ∧ dataset = "DDR" then tMax m
  else tMean m

theorem maskZeroL_cons (mn a b : ℚ) (inp t : List ℚ) :
    maskZeroL mn (a :: inp) (b :: t)
      = (if mn < a then b else 0) :: maskZeroL mn inp t := rfl

theorem maskSelectL_cons (mn a b : ℚ) (inp t : List ℚ) :
    maskSelectL mn (a :: inp) (b :: t)
      = if mn < a then b :: maskSelectL mn inp t else maskSelectL mn inp t := by
  unfold maskSelectL
  rw [List.zip_cons_cons, List.filter_cons]
  by_cases h : mn < a
  · simp [h]
  · simp [h]

/-- Re-masking an already-masked map does not change the values selected at
foreground positions. -/
theorem maskSelectL_maskZeroL (mn : ℚ) :
    ∀ inp t : List ℚ,
      maskSelectL mn inp (maskZeroL mn inp t) = maskSelectL mn inp t := by
  intro inp
  induction inp with
  | nil => intro t; rfl
  | cons a inp ih =>
    intro t
    cases t with
    | nil => rfl
    | cons b t =>
      rw [maskZeroL_cons]
      by_cases h : mn < a
      · rw [if_pos h, maskSelectL_cons, maskSelectL_cons, if_pos h, if_pos h, ih]
      · rw [if_neg h, maskSelectL_cons, maskSelectL_cons, if_neg h, if_neg h, ih]

/-- C5. The evaluation score is computed by modality dispatch exactly as the
claim states it: for MRI/CT the map restricted to the image foreground,
optionally rebased by its own foreground minimum, scored as the foreground
maximum; for RF with dataset DDR the unmasked maximum; otherwise the unmasked
mean.  The code's extra re-masking after the rebase never changes the score. -/
theorem c5_anomaly_score_dispatch (modality dataset : String) (getImages : Bool)
    (inp m : List ℚ) :
    val_step_score modality dataset getImages inp m
      = specAnomalyScore modality dataset getImages inp m := by
  unfold val_step_score specAnomalyScore
  by_cases hmod : modality = "MRI" ∨ modality = "CT"
  · rw [if_pos hmod, if_pos hmod]
    cases htm : tMin inp with
    | none => rfl
    | some mn =>
      cases getImages with
      | false => rfl
      | true =>
        show (match fgMinOf (maskZeroL mn inp m) with
          | none => none
          | some sub => tMax (maskSelectL mn inp
              (maskZeroL mn inp ((maskZeroL mn inp m).map (fun x => x - sub))))) =
          (match fgMinOf (maskZeroL mn inp m) with
          | none => none
          | some sub => tMax (maskSelectL mn inp
              ((maskZeroL mn inp m).map (fun x => x - sub))))
        cases hfg : fgMinOf (maskZeroL mn inp m) with
        | none => rfl
        | some sub =>
          show tMax (maskSelectL mn inp
              (maskZeroL mn inp ((maskZeroL mn inp m).map (fun x => x - sub)))) = _
          rw [maskSelectL_maskZeroL]
  · rw [if_neg hmod, if_neg hmod]

/-- `adjust_lr(lr, optimizer, epoch, max_epochs)` (CCD_trainer.py lines 88-93):
`eta_min = lr * (0.1 ** 3); lr = eta_min + (lr - eta_min) *
(1 + cos(pi * epoch / max_epochs)) / 2`. -/
noncomputable def adjust_lr (lr : ℝ) (epoch M : Nat) : ℝ :=
  lr * (1/10)^3 + (lr - lr * (1/10)^3) * (1 + Real.cos (Real.pi * epoch / M)) / 2

/-- The learning rate in effect during epoch `e` of CCD `train()`
(CCD_trainer.py lines 100-108): `lr` starts at `config.lr` and each epoch is
reassigned `lr = adjust_lr(lr, optimizer, epoch, config.max_epochs)` — the
previous (already annealed) rate is fed back in, not the base rate. -/
noncomputable def lrAt (base : ℝ) (M : Nat) : Nat → ℝ
  | 0 => adjust_lr base 0 M
  | e + 1 => adjust_lr (lrAt base M e) (e + 1) M

/-- The multiplicative factor one `adjust_lr` call applies to its input. -/
noncomputable def cosFactor (M j : Nat) : ℝ :=
  1/1000 + (999/1000) * (1 + Real.cos (Real.pi * j / M)) / 2

theorem adjust_lr_eq (lr : ℝ) (j M : Nat) :
    adjust_lr lr j M = lr * cosFactor M j := by
  unfold adjust_lr cosFactor
  ring

theorem cosFactor_pos (M j : Nat) : 0 < cosFactor M j := by
  have h := Real.neg_one_le_cos (Real.pi * j / M)
  unfold cosFactor
  linarith

theorem cosFactor_le_one (M j : Nat) : cosFactor M j ≤ 1 := by
  have h := Real.cos_le_one (Real.pi * j / M)
  unfold cosFactor
  linarith

theorem cosFactor_zero (M : Nat) : cosFactor M 0 = 1 := by
  unfold cosFactor
  norm_num

theorem cosFactor_le_bound (j : Nat) (h1 : 67 ≤ j) (h2 : j ≤ 200) :
    cosFactor 200 j ≤ 751/1000 := by
  have hj1 : (67 : ℝ) ≤ (j : ℝ) := by exact_mod_cast h1
  have hj2 : (j : ℝ) ≤ 200 := by exact_mod_cast h2
  have hπ := Real.pi_pos
  have h3 : Real.pi / 3 ≤ Real.pi * j / 200 := by
    rw [div_le_div_iff (by norm_num) (by norm_num)]
    nlinarith
  have h4 : Real.pi * j / 200 ≤ Real.pi := by
    rw [div_le_iff (by norm_num)]
    nlinarith
  have hc : Real.cos (Real.pi * j / 200) ≤ 1/2 := by
    calc Real.cos (Real.pi * j / 200) ≤ Real.cos (Real.pi / 3) :=
          Real.cos_le_cos_of_nonneg_of_le_pi (by positivity) h4 h3
    _ = 1/2 := Real.cos_pi_div_three
  unfold cosFactor
  linarith

theorem lrAt_pos (base : ℝ) (M : Nat) (hb : 0 < base) :
    ∀ e, 0 < lrAt base M e := by
  intro e
  induction e with
  | zero =>
    show 0 < adjust_lr base 0 M
    rw [adjust_lr_eq]
    exact mul_pos hb (cosFactor_pos M 0)
  | succ e ih =>
    show 0 < adjust_lr (lrAt base M e) (e + 1) M
    rw [adjust_lr_eq]
    exact mul_pos ih (cosFactor_pos M (e + 1))

theorem lrAt_zero (base : ℝ) (M : Nat) : lrAt base M 0 = base := by
  show adjust_lr base 0 M = base
  rw [adjust_lr_eq, cosFactor_zero, mul_one]

theorem lrAt_succ_le (base : ℝ) (M : Nat) (hb : 0 < base) (e : Nat) :
    lrAt base M (e + 1) ≤ lrAt base M e := by
  show adjust_lr (lrAt base M e) (e + 1) M ≤ lrAt base M e
  rw [adjust_lr_eq]
  have hpos := lrAt_pos base M hb e
  have hle := cosFactor_le_one M (e + 1)
  nlinarith

theorem lrAt_le_base (base : ℝ) (M : Nat) (hb : 0 < base) :
    ∀ e, lrAt base M e ≤ base := by
  intro e
  induction e with
  | zero => rw [lrAt_zero]
  | succ e ih => exact le_trans (lrAt_succ_le base M hb e) ih

theorem lrAt_decay (base : ℝ) (hb : 0 < base) :
    ∀ k, 66 + k ≤ 200 →
      lrAt base 200 (66 + k) ≤ (751/1000)^k * lrAt base 200 66 := by
  intro k
  induction k with
  | zero =>
    intro _
    simp
  | succ k ih =>
    intro hk
    have hk' : 66 + k ≤ 200 := by omega
    have hstep : lrAt base 200 (66 + (k + 1)) ≤ (751/1000) * lrAt base 200 (66 + k) := by
      have harith : 66 + (k + 1) = (66 + k) + 1 := by omega
      rw [harith]
      show adjust_lr (lrAt base 200 (66 + k)) ((66 + k) + 1) 200 ≤ _
      rw [adjust_lr_eq]
      have hf := cosFactor_le_bound ((66 + k) + 1) (by omega) (by omega)
      have hp := lrAt_pos base 200 hb (66 + k)
      nlinarith
    calc lrAt base 200 (66 + (k + 1)) ≤ (751/1000) * lrAt base 200 (66 + k) := hstep
    _ ≤ (751/1000) * ((751/1000)^k * lrAt base 200 66) := by
        have := ih hk'
        nlinarith
    _ = (751/1000)^(k + 1) * lrAt base 200 66 := by ring

/-- C3. With base rate 0.01 and 200 epochs, a single `adjust_lr` call on the
base rate (the cosine-annealing value the spec describes) yields 1001/200000 ≈
0.005, strictly between the floor 1e-5 and 0.01; but the training loop feeds
each epoch's output back in as the next input, and the compounded rate actually
in effect at epoch 100 has fallen strictly below the floor 1e-5 — the loop does
not set the rate to the cosine-annealing value between base rate and floor. -/
theorem c3_lr_compounds_below_floor :
    adjust_lr (1/100) 100 200 = 1001/200000 ∧
    (1/100000 : ℝ) < 1001/200000 ∧ (1001/200000 : ℝ) < 1/100 ∧
    lrAt (1/100) 200 100 < 1/100000 := by
  refine ⟨?_, by norm_num, by norm_num, ?_⟩
  · unfold adjust_lr
    have harg : Real.pi * ((100 : Nat) : ℝ) / ((200 : Nat) : ℝ) = Real.pi / 2 := by
      push_cast
      ring
    rw [harg, Real.cos_pi_div_two]
    norm_num
  · have hb : (0 : ℝ) < 1/100 := by norm_num
    have hd := lrAt_decay (1/100) hb 34 (by omega)
    have h66 : lrAt (1/100) 200 66 ≤ 1/100 := lrAt_le_base (1/100) 200 hb 66
    have hpow : (0 : ℝ) < (751/1000)^34 := by positivity
    have h100 : lrAt (1/100) 200 100 ≤ (751/1000)^34 * (1/100) := by
      calc lrAt (1/100) 200 100 = lrAt (1/100) 200 (66 + 34) := by norm_num
      _ ≤ (751/1000)^34 * lrAt (1/100) 200 66 := hd
      _ ≤ (751/1000)^34 * (1/100) := by nlinarith
    calc lrAt (1/100) 200 100 ≤ (751/1000)^34 * (1/100) := h100
    _ < 1/100000 := by norm_num
